import Mathlib

/-!
Shallow embedding of the scrape-orchestration core of
yet-another-cloudwatch-exporter (`pkg/job/abstract.go`), together with proofs
of the specification's testable properties.

Conventions of the embedding:
* Go pointer-typed fields (`*string`, `*float64`, ...) become `Option`-typed
  fields; a `nil` pointer is `none`.
* Metric values and timestamps are carried opaquely by the code (copied, never
  computed with), so they are modelled by `Int`.
* Fallible collaborator calls (network clients, declared external boundaries in
  the specification) are supplied as explicit oracle arguments returning
  `Except`/`Option` values; a `nil` Go response is `none`.
* The concurrent fan-out loops are embedded sequentially in submission order;
  the specification itself states no output ordering is guaranteed, and every
  property proved here is order-insensitive or about a single worker's slice.
-/

set_option autoImplicit false

universe u

namespace Yace

variable {α : Type u}

/-- Dimension of a cloudwatch metric (name/value pair). -/
structure Dimension where
  Name : String
  Value : String
deriving DecidableEq, Repr

/-- Catalog entry returned by metric-catalog discovery (`cloudwatch.Metric`):
the dimension combinations for which the monitoring system has data. -/
structure CwMetric where
  Dimensions : List Dimension
deriving DecidableEq, Repr

/-- Metric definition from configuration (`config.Metric`). -/
structure MetricConfig where
  Name : String
  Statistics : List String
  Period : Int
  Length : Int
  Delay : Int
  NilToZero : Option Bool
  AddCloudwatchTimestamp : Option Bool
deriving DecidableEq, Repr

/-- Discovery job configuration (`config.Job`). -/
structure Job where
  JobType : String
  Roles : List String
  Regions : List String
  Metrics : List MetricConfig
  Length : Int
  Delay : Int
  RoundingPeriod : Option Int
  DimensionNameRequirements : List String
  CustomTags : List (String × String)
deriving DecidableEq, Repr

/-- Static job configuration (`config.Static`). -/
structure StaticConf where
  Name : String
  Namespace : String
  Roles : List String
  Regions : List String
  Dimensions : List Dimension
  Metrics : List MetricConfig
  CustomTags : List (String × String)
deriving DecidableEq, Repr

/-- Custom-namespace job configuration (`config.CustomNamespace`). -/
structure CustomNamespaceConf where
  Name : String
  Namespace : String
  Roles : List String
  Regions : List String
  Metrics : List MetricConfig
  Length : Int
  Delay : Int
  RoundingPeriod : Option Int
  DimensionNameRequirements : List String
  CustomTags : List (String × String)
deriving DecidableEq, Repr

/-- Externally discovered tagged resource (`services.TaggedResource`). -/
structure TaggedResource where
  ARN : String
  Namespace : String
  Region : String
  Tags : List (String × String)
deriving DecidableEq, Repr

/-- The correlated query/result record (`cloudwatchData` in `pkg/job`).
`MetricID` is the correlation id carried into a batched data-fetch call and
echoed by its results; `GetMetricDataPoint`/`GetMetricDataTimestamps` form the
mutable result slot (both `nil` pointers, hence `none`, until a result with a
non-empty value sequence is merged); `Points` is the result of the unbatched
static fetch. -/
structure CloudwatchData where
  ID : Option String
  MetricID : Option String
  Metric : Option String
  Namespace : Option String
  Statistics : List String
  NilToZero : Option Bool
  AddCloudwatchTimestamp : Option Bool
  CustomTags : List (String × String)
  Dimensions : List Dimension
  Region : Option String
  AccountId : Option String
  Period : Int
  Points : Option (List Int)
  GetMetricDataPoint : Option Int
  GetMetricDataTimestamps : Option Int
deriving DecidableEq, Repr

/-- Per-id entry of a batched data-fetch response
(`cloudwatch.MetricDataResult`): the echoed correlation id, a value sequence
and a matching timestamp sequence. The source dereferences the id pointer
unconditionally, so it is modelled as non-optional. -/
structure MetricDataResult where
  Id : String
  Values : List Int
  Timestamps : List Int
deriving DecidableEq, Repr

/-- Request of one batched data-fetch call.
Modelled from the spec: `createGetMetricDataInput` (`pkg/job`, not under the
provided source) builds the call input carrying the slice's correlation ids and
the shared request parameters (namespace, window length, delay, rounding). -/
structure GetMetricDataInput where
  Ids : List (Option String)
  Namespace : String
  Length : Int
  Delay : Int
  RoundingPeriod : Option Int
deriving DecidableEq, Repr

/-- Modelled from the spec: the batched-call input builder carries the slice's
correlation ids and the shared request parameters. -/
def createGetMetricDataInput (input : List CloudwatchData) (ns : String)
    (length : Int) (delay : Int) (roundingPeriod : Option Int) :
    GetMetricDataInput :=
  { Ids := input.map (fun d => d.MetricID)
    Namespace := ns
    Length := length
    Delay := delay
    RoundingPeriod := roundingPeriod }

/-- Batch partitioner: embedding of the loop
`for i := 0; i < metricDataLength; i += maxMetricCount` together with
`input := getMetricDatas[i:end]`, `end = min(i+maxMetricCount, N)`, shared by
`scrapeDiscoveryJobUsingMetricData` (abstract.go:296-303) and
`scrapeCustomNamespaceJobUsingMetricData` (abstract.go:355-368).  The `M = 0`
guard only makes the definition total; the code is reached with
`metricsPerQuery > 0` and every property below assumes `0 < M`. -/
def partitionBatchesAux (M : Nat) : Nat → List α → List (List α)
  | _, [] => []
  | 0, _ :: _ => []
  | fuel + 1, a :: l =>
    if M = 0 then []
    else (a :: l).take M :: partitionBatchesAux M fuel ((a :: l).drop M)

/-- Entry point: the list's length is enough fuel, since every slice consumes
at least one element when `M > 0`. -/
def partitionBatches (M : Nat) (l : List α) : List (List α) :=
  partitionBatchesAux M l.length l

theorem partitionBatchesAux_congr (M : Nat) (hM : M ≠ 0) :
    ∀ (f₁ f₂ : Nat) (l : List α), l.length ≤ f₁ → l.length ≤ f₂ →
      partitionBatchesAux M f₁ l = partitionBatchesAux M f₂ l := by
  intro f₁
  induction f₁ with
  | zero =>
    intro f₂ l h1 h2
    have : l = [] := List.length_eq_zero.mp (Nat.le_zero.mp h1)
    subst this
    cases f₂ <;> rfl
  | succ f ih =>
    intro f₂ l h1 h2
    cases l with
    | nil => cases f₂ <;> rfl
    | cons a l =>
      cases f₂ with
      | zero => simp at h2
      | succ f₂ =>
        rw [partitionBatchesAux, partitionBatchesAux, if_neg hM, if_neg hM]
        congr 1
        apply ih
        · simp only [List.length_drop, List.length_cons]
          simp only [List.length_cons] at h1
          omega
        · simp only [List.length_drop, List.length_cons]
          simp only [List.length_cons] at h2
          omega

theorem partitionBatches_nil (M : Nat) :
    partitionBatches M ([] : List α) = [] := rfl

theorem partitionBatches_cons (M : Nat) (hM : M ≠ 0) (a : α) (l : List α) :
    partitionBatches M (a :: l) =
      (a :: l).take M :: partitionBatches M ((a :: l).drop M) := by
  show partitionBatchesAux M (l.length + 1) (a :: l) = _
  rw [partitionBatchesAux, if_neg hM]
  congr 1
  apply partitionBatchesAux_congr M hM
  · simp only [List.length_drop, List.length_cons]
    omega
  · exact Nat.le_refl _

theorem partitionBatches_flatten_fuel (M : Nat) (hM : 0 < M) :
    ∀ (n : Nat) (l : List α), l.length ≤ n → (partitionBatches M l).flatten = l := by
  intro n
  induction n with
  | zero =>
    intro l hl
    have : l = [] := List.length_eq_zero.mp (Nat.le_zero.mp hl)
    subst this
    simp [partitionBatches_nil]
  | succ n ih =>
    intro l hl
    cases l with
    | nil => simp [partitionBatches_nil]
    | cons a l =>
      rw [partitionBatches_cons M (by omega) a l]
      have hlen : ((a :: l).drop M).length ≤ n := by
        simp only [List.length_drop, List.length_cons]
        simp only [List.length_cons] at hl
        omega
      rw [List.flatten, ih _ hlen, List.take_append_drop]

/-- Concatenating the batches reproduces the original list. -/
theorem partitionBatches_flatten (M : Nat) (hM : 0 < M) (l : List α) :
    (partitionBatches M l).flatten = l :=
  partitionBatches_flatten_fuel M hM l.length l (Nat.le_refl _)

theorem partitionBatches_length_fuel (M : Nat) (hM : 0 < M) :
    ∀ (n : Nat) (l : List α), l.length ≤ n →
      (partitionBatches M l).length = (l.length + M - 1) / M := by
  intro n
  induction n with
  | zero =>
    intro l hl
    have : l = [] := List.length_eq_zero.mp (Nat.le_zero.mp hl)
    subst this
    rw [partitionBatches_nil]
    simp only [List.length_nil, Nat.zero_add]
    exact (Nat.div_eq_of_lt (by omega)).symm
  | succ n ih =>
    intro l hl
    cases l with
    | nil =>
      rw [partitionBatches_nil]
      simp only [List.length_nil, Nat.zero_add]
      exact (Nat.div_eq_of_lt (by omega)).symm
    | cons a l =>
      rw [partitionBatches_cons M (by omega) a l]
      have hlen : ((a :: l).drop M).length ≤ n := by
        simp only [List.length_drop, List.length_cons]
        simp only [List.length_cons] at hl
        omega
      have ihd := ih _ hlen
      simp only [List.length_cons, List.length_drop] at ihd ⊢
      rw [ihd]
      have hR : l.length + 1 + M - 1 = l.length + M := by omega
      rw [hR, Nat.add_div_right _ hM]
      rcases Nat.lt_or_ge l.length M with hlt | hge
      · have h0 : l.length + 1 - M = 0 := by omega
        rw [h0, Nat.zero_add, Nat.div_eq_of_lt (by omega),
          Nat.div_eq_of_lt hlt]
      · have h1 : l.length + 1 - M + M - 1 = l.length := by omega
        rw [h1]

/-- The number of batches is the ceiling of N/M (which the source computes as
`int(math.Ceil(float64(N) / float64(M)))` and passes to `wg.Add`). -/
theorem partitionBatches_length (M : Nat) (hM : 0 < M) (l : List α) :
    (partitionBatches M l).length = (l.length + M - 1) / M :=
  partitionBatches_length_fuel M hM l.length l (Nat.le_refl _)

theorem partitionBatches_sublist_fuel (M : Nat) :
    ∀ (n : Nat) (l : List α) (b : List α), l.length ≤ n →
      b ∈ partitionBatches M l → b.Sublist l := by
  intro n
  induction n with
  | zero =>
    intro l b hl hb
    have : l = [] := List.length_eq_zero.mp (Nat.le_zero.mp hl)
    subst this
    rw [partitionBatches_nil] at hb
    exact absurd hb (List.not_mem_nil b)
  | succ n ih =>
    intro l b hl hb
    cases l with
    | nil =>
      rw [partitionBatches_nil] at hb
      exact absurd hb (List.not_mem_nil b)
    | cons a l =>
      by_cases hM : M = 0
      · subst hM
        simp [partitionBatches, partitionBatchesAux] at hb
      · rw [partitionBatches_cons M hM a l] at hb
        rcases List.mem_cons.mp hb with hb | hb
        · subst hb
          exact List.take_sublist M (a :: l)
        · have hlen : ((a :: l).drop M).length ≤ n := by
            simp only [List.length_drop, List.length_cons]
            simp only [List.length_cons] at hl
            omega
          exact (ih _ b hlen hb).trans (List.drop_sublist M (a :: l))

/-- Every batch is a sublist of the original query list. -/
theorem partitionBatches_sublist (M : Nat) (l : List α) (b : List α)
    (hb : b ∈ partitionBatches M l) : b.Sublist l :=
  partitionBatches_sublist_fuel M l.length l b (Nat.le_refl _) hb

/-- Modelled from the spec: `findGetMetricDataById` (`pkg/job`, not under the
provided source) locates the CorrelatedQuery in the given slice whose
correlation id equals the returned id, reporting an error (here `none`) when no
query matches. -/
def findGetMetricDataById (input : List CloudwatchData) (id : String) :
    Option CloudwatchData :=
  input.find? (fun d => decide (d.MetricID = some id))

/-- Result-slot update of one matched query (abstract.go:311-314 / 376-379): a
non-empty value sequence sets the slot to the first value and its matching
timestamp; an empty one leaves the query untouched. The source indexes
`Timestamps[0]`, defined when the API honours its contract of a timestamp
sequence matching the value sequence; `head?` realizes that access. -/
def updateFromResult (q : CloudwatchData) (r : MetricDataResult) :
    CloudwatchData :=
  if r.Values = [] then q
  else { q with GetMetricDataPoint := r.Values.head?
                GetMetricDataTimestamps := r.Timestamps.head? }

/-- Merge loop of one batch (abstract.go:307-317 / 372-381): iterate the
response's per-id results in order; a result whose id matches no query in the
slice is skipped; a matched query is appended to the batch's output after the
result-slot update. -/
def mergeBatchResults (input : List CloudwatchData)
    (results : List MetricDataResult) : List CloudwatchData :=
  results.foldl
    (fun output r =>
      match findGetMetricDataById input r.Id with
      | none => output
      | some q => output ++ [updateFromResult q r]) []

theorem mergeBatchResults_foldl_acc (input : List CloudwatchData)
    (results : List MetricDataResult) (acc : List CloudwatchData) :
    results.foldl
      (fun output r =>
        match findGetMetricDataById input r.Id with
        | none => output
        | some q => output ++ [updateFromResult q r]) acc =
      acc ++ results.filterMap
        (fun r => (findGetMetricDataById input r.Id).map
          (fun q => updateFromResult q r)) := by
  induction results generalizing acc with
  | nil => simp
  | cons r rs ih =>
    cases hf : findGetMetricDataById input r.Id with
    | none => simp [List.foldl_cons, List.filterMap_cons, hf, ih]
    | some q => simp [List.foldl_cons, List.filterMap_cons, hf, ih]

/-- The merge loop is the filterMap of the per-result lookup. -/
theorem mergeBatchResults_eq_filterMap (input : List CloudwatchData)
    (results : List MetricDataResult) :
    mergeBatchResults input results =
      results.filterMap
        (fun r => (findGetMetricDataById input r.Id).map
          (fun q => updateFromResult q r)) := by
  rw [mergeBatchResults, mergeBatchResults_foldl_acc, List.nil_append]

theorem updateFromResult_MetricID (q : CloudwatchData) (r : MetricDataResult) :
    (updateFromResult q r).MetricID = q.MetricID := by
  rw [updateFromResult]
  split <;> rfl

theorem findGetMetricDataById_mem {input : List CloudwatchData} {x : String}
    {q : CloudwatchData} (h : findGetMetricDataById input x = some q) :
    q ∈ input ∧ q.MetricID = some x := by
  refine ⟨List.mem_of_find?_eq_some h, ?_⟩
  have := List.find?_some h
  exact of_decide_eq_true this

theorem findGetMetricDataById_eq_none {input : List CloudwatchData}
    {x : String} (h : ∀ q ∈ input, q.MetricID ≠ some x) :
    findGetMetricDataById input x = none := by
  rw [findGetMetricDataById, List.find?_eq_none]
  intro d hd
  simpa using h d hd

theorem findGetMetricDataById_unique {input : List CloudwatchData} {x : String}
    {q : CloudwatchData} (hnd : (input.map (fun d => d.MetricID)).Nodup)
    (hq : q ∈ input) (hid : q.MetricID = some x) :
    findGetMetricDataById input x = some q := by
  induction input with
  | nil => exact absurd hq (List.not_mem_nil q)
  | cons a l ih =>
    rw [List.map_cons, List.nodup_cons] at hnd
    rcases List.mem_cons.mp hq with hq | hq
    · subst hq
      rw [findGetMetricDataById, List.find?_cons_of_pos]
      exact decide_eq_true hid
    · have hne : a.MetricID ≠ some x := by
        intro hax
        exact hnd.1 (by
          rw [hax, ← hid]
          exact List.mem_map_of_mem (fun d => d.MetricID) hq)
      rw [findGetMetricDataById, List.find?_cons_of_neg, ← findGetMetricDataById]
      · exact ih hnd.2 hq
      · simpa using hne

theorem mergeBatchResults_append (input : List CloudwatchData)
    (rs rs' : List MetricDataResult) :
    mergeBatchResults input (rs ++ rs') =
      mergeBatchResults input rs ++ mergeBatchResults input rs' := by
  simp [mergeBatchResults_eq_filterMap, List.filterMap_append]

theorem mergeBatchResults_singleton (input : List CloudwatchData)
    (r : MetricDataResult) :
    mergeBatchResults input [r] =
      ((findGetMetricDataById input r.Id).map
        (fun q => updateFromResult q r)).toList := by
  cases hf : findGetMetricDataById input r.Id <;>
    simp [mergeBatchResults_eq_filterMap, List.filterMap_cons, hf]

theorem mem_mergeBatchResults {input : List CloudwatchData}
    {results : List MetricDataResult} {q' : CloudwatchData} :
    q' ∈ mergeBatchResults input results ↔
      ∃ r ∈ results, ∃ q, findGetMetricDataById input r.Id = some q ∧
        q' = updateFromResult q r := by
  rw [mergeBatchResults_eq_filterMap, List.mem_filterMap]
  constructor
  · rintro ⟨r, hr, hmap⟩
    rcases Option.map_eq_some'.mp hmap with ⟨q, hf, hq⟩
    exact ⟨r, hr, q, hf, hq.symm⟩
  · rintro ⟨r, hr, q, hf, hq⟩
    exact ⟨r, hr, Option.map_eq_some'.mpr ⟨q, hf, hq.symm⟩⟩

theorem filter_mergeBatchResults_eq_nil {input : List CloudwatchData}
    {results : List MetricDataResult} {x : String}
    (h : ∀ r ∈ results, r.Id ≠ x) :
    (mergeBatchResults input results).filter
      (fun d => decide (d.MetricID = some x)) = [] := by
  rw [List.filter_eq_nil_iff]
  intro q' hq'
  rcases mem_mergeBatchResults.mp hq' with ⟨r, hr, q, hf, hq⟩
  have hid : q.MetricID = some r.Id := (findGetMetricDataById_mem hf).2
  have : q'.MetricID = some r.Id := by rw [hq, updateFromResult_MetricID, hid]
  simp only [this, decide_eq_true_eq, Option.some.injEq]
  simpa using h r hr

theorem filter_mergeBatchResults_eq_singleton {input : List CloudwatchData}
    {results : List MetricDataResult} {x : String} {q : CloudwatchData}
    {r : MetricDataResult}
    (hin : (input.map (fun d => d.MetricID)).Nodup)
    (hres : (results.map (fun r => r.Id)).Nodup)
    (hq : q ∈ input) (hqid : q.MetricID = some x)
    (hr : r ∈ results) (hrid : r.Id = x) :
    (mergeBatchResults input results).filter
      (fun d => decide (d.MetricID = some x)) = [updateFromResult q r] := by
  induction results with
  | nil => exact absurd hr (List.not_mem_nil r)
  | cons r' rs ih =>
    rw [List.map_cons, List.nodup_cons] at hres
    have hsplit : mergeBatchResults input (r' :: rs) =
        mergeBatchResults input [r'] ++ mergeBatchResults input rs :=
      mergeBatchResults_append input [r'] rs
    rcases List.mem_cons.mp hr with hr | hr
    · subst hr
      have hfind : findGetMetricDataById input x = some q :=
        findGetMetricDataById_unique hin hq hqid
      rw [hsplit, mergeBatchResults_singleton, hrid, hfind, List.filter_append]
      have htail : ∀ r'' ∈ rs, r''.Id ≠ x := by
        intro r'' hr'' heq
        exact hres.1 (by
          rw [hrid, ← heq]
          exact List.mem_map_of_mem (fun r => r.Id) hr'')
      rw [filter_mergeBatchResults_eq_nil htail]
      simp [updateFromResult_MetricID, hqid]
    · have hne : r'.Id ≠ x := by
        intro heq
        exact hres.1 (by
          rw [heq, ← hrid]
          exact List.mem_map_of_mem (fun r => r.Id) hr)
      rw [hsplit, List.filter_append,
        filter_mergeBatchResults_eq_nil (by simpa using hne),
        List.nil_append]
      exact ih hres.2 hr

/-- Modelled from the spec: the default request window length ("a default
constant"); `model.DefaultLengthSeconds` (`pkg/model`, not under the provided
source) sets it to 300 seconds. -/
def DefaultLengthSeconds : Int := 300

/-- Window-length computation of a discovery job (abstract.go:202-214): start
from the default, replace it by the job-level override when that is positive,
then raise to any larger per-metric override. -/
def getMetricDataInputLength (job : Job) : Int :=
  let length := DefaultLengthSeconds
  let length := if job.Length > 0 then job.Length else length
  job.Metrics.foldl
    (fun length metric => if metric.Length > length then metric.Length else length)
    length

/-- Window length as the specification words it: "the maximum of: the
job-level override, any per-metric override, and a default constant". This
definition follows the spec's sentence, to be compared against
`getMetricDataInputLength` which is translated from the source. -/
def specWindowLength (job : Job) : Int :=
  (job.Metrics.map (fun m => m.Length)).foldl max (max job.Length DefaultLengthSeconds)

theorem foldl_length_max (l : List MetricConfig) :
    ∀ acc : Int,
      l.foldl (fun length metric =>
        if metric.Length > length then metric.Length else length) acc =
      (l.map (fun m => m.Length)).foldl max acc := by
  induction l with
  | nil => intro acc; rfl
  | cons m ms ih =>
    intro acc
    rw [List.foldl_cons, List.map_cons, List.foldl_cons, ih]
    congr 1
    rcases le_or_lt m.Length acc with h | h
    · rw [if_neg (not_lt.mpr h), max_eq_left h]
    · rw [if_pos h, max_eq_right h.le]

/-- Closed form of the source's window-length computation: per-metric maxima
over a base that is the job override when positive, the default otherwise. -/
theorem getMetricDataInputLength_eq (job : Job) :
    getMetricDataInputLength job =
      (job.Metrics.map (fun m => m.Length)).foldl max
        (if job.Length > 0 then job.Length else DefaultLengthSeconds) := by
  rw [getMetricDataInputLength, foldl_length_max]

/-- Modelled from the spec: `metricDimensionsMatchNames` (`pkg/job`, not under
the provided source) keeps only catalog entries whose dimension-key set equals
the required name set exactly (same keys, any values). -/
def metricDimensionsMatchNames (m : CwMetric) (req : List String) : Bool :=
  decide (m.Dimensions.length = req.length) &&
    m.Dimensions.all (fun d => req.contains d.Name)

/-- Correlation-id minting of the custom-namespace unit (abstract.go:426):
`fmt.Sprintf("id_%d", rand.Int())` applied to the v-th value drawn from the
process-global random source. -/
def mintId (v : Nat) : String := "id_" ++ toString v

/-- One correlated query of the custom-namespace unit (abstract.go:427-440). -/
def mkCustomQuery (job : CustomNamespaceConf) (region : String)
    (accountId : Option String) (metric : MetricConfig) (cwMetric : CwMetric)
    (stats : String) (id : String) : CloudwatchData :=
  { ID := some job.Name
    MetricID := some id
    Metric := some metric.Name
    Namespace := some job.Namespace
    Statistics := [stats]
    NilToZero := metric.NilToZero
    AddCloudwatchTimestamp := metric.AddCloudwatchTimestamp
    CustomTags := job.CustomTags
    Dimensions := cwMetric.Dimensions
    Region := some region
    AccountId := accountId
    Period := metric.Period
    Points := none
    GetMetricDataPoint := none
    GetMetricDataTimestamps := none }

/-- Query generation of the custom-namespace unit (abstract.go:394-445): for
every metric definition, list the catalog (through the tag gate; a failing call
skips the metric), and for every catalog entry passing the optional
dimension-name filter and every declared statistic, append one query with a
minted id. The process-global random source is the explicit stream `rng`; the
k-th mint overall draws `rng k`, and since every append adds exactly one query,
k is the accumulator length at mint time. -/
def getMetricDataForQueriesForCustomNamespace (job : CustomNamespaceConf)
    (region : String) (accountId : Option String)
    (listMetrics : MetricConfig → Except Unit (List CwMetric))
    (rng : Nat → Nat) : List CloudwatchData :=
  job.Metrics.foldl
    (fun acc metric =>
      match listMetrics metric with
      | .error _ => acc
      | .ok catalog =>
        catalog.foldl
          (fun acc cwMetric =>
            if decide (0 < job.DimensionNameRequirements.length) &&
                !metricDimensionsMatchNames cwMetric job.DimensionNameRequirements
            then acc
            else
              metric.Statistics.foldl
                (fun acc stats =>
                  acc ++ [mkCustomQuery job region accountId metric cwMetric
                    stats (mintId (rng acc.length))])
                acc)
          acc)
    []

/-- Invariant tying every minted correlation id to its draw index: the i-th
generated query carries the id rendered from the i-th draw of the source. -/
def mintedIds (rng : Nat → Nat) (acc : List CloudwatchData) : Prop :=
  acc.map (fun d => d.MetricID) =
    (List.range acc.length).map (fun i => some (mintId (rng i)))

theorem mintedIds_nil (rng : Nat → Nat) : mintedIds rng [] := by
  simp [mintedIds]

theorem mintedIds_append_one {rng : Nat → Nat} {acc : List CloudwatchData}
    {q : CloudwatchData} (h : mintedIds rng acc)
    (hq : q.MetricID = some (mintId (rng acc.length))) :
    mintedIds rng (acc ++ [q]) := by
  rw [mintedIds, List.length_append, List.map_append, List.length_cons,
    List.length_nil, Nat.zero_add, List.range_succ, List.map_append, ← h]
  simp [hq]

theorem mintedIds_statsFold (rng : Nat → Nat) (job : CustomNamespaceConf)
    (region : String) (accountId : Option String) (metric : MetricConfig)
    (cwMetric : CwMetric) (stats : List String) :
    ∀ acc, mintedIds rng acc →
      mintedIds rng (stats.foldl
        (fun acc s =>
          acc ++ [mkCustomQuery job region accountId metric cwMetric s
            (mintId (rng acc.length))])
        acc) := by
  induction stats with
  | nil => intro acc h; exact h
  | cons s ss ih =>
    intro acc h
    rw [List.foldl_cons]
    exact ih _ (mintedIds_append_one h rfl)

theorem mintedIds_catalogFold (rng : Nat → Nat) (job : CustomNamespaceConf)
    (region : String) (accountId : Option String) (metric : MetricConfig)
    (catalog : List CwMetric) :
    ∀ acc, mintedIds rng acc →
      mintedIds rng (catalog.foldl
        (fun acc cwMetric =>
          if decide (0 < job.DimensionNameRequirements.length) &&
              !metricDimensionsMatchNames cwMetric job.DimensionNameRequirements
          then acc
          else
            metric.Statistics.foldl
              (fun acc stats =>
                acc ++ [mkCustomQuery job region accountId metric cwMetric
                  stats (mintId (rng acc.length))])
              acc)
        acc) := by
  induction catalog with
  | nil => intro acc h; exact h
  | cons cwMetric rest ih =>
    intro acc h
    rw [List.foldl_cons]
    by_cases hc : (decide (0 < job.DimensionNameRequirements.length) &&
        !metricDimensionsMatchNames cwMetric job.DimensionNameRequirements) = true
    · rw [if_pos hc]
      exact ih _ h
    · rw [if_neg hc]
      exact ih _ (mintedIds_statsFold rng job region accountId metric cwMetric
        metric.Statistics acc h)

/-- Every query generated by the custom-namespace unit carries the id minted
from its own draw of the random source. -/
theorem customNamespace_ids_minted (job : CustomNamespaceConf) (region : String)
    (accountId : Option String)
    (listMetrics : MetricConfig → Except Unit (List CwMetric))
    (rng : Nat → Nat) :
    mintedIds rng
      (getMetricDataForQueriesForCustomNamespace job region accountId
        listMetrics rng) := by
  rw [getMetricDataForQueriesForCustomNamespace]
  generalize job.Metrics = ms
  have hstep : ∀ (ms : List MetricConfig) (acc : List CloudwatchData),
      mintedIds rng acc →
      mintedIds rng (ms.foldl
        (fun acc metric =>
          match listMetrics metric with
          | .error _ => acc
          | .ok catalog =>
            catalog.foldl
              (fun acc cwMetric =>
                if decide (0 < job.DimensionNameRequirements.length) &&
                    !metricDimensionsMatchNames cwMetric
                      job.DimensionNameRequirements
                then acc
                else
                  metric.Statistics.foldl
                    (fun acc stats =>
                      acc ++ [mkCustomQuery job region accountId metric cwMetric
                        stats (mintId (rng acc.length))])
                    acc)
              acc)
        acc) := by
    intro ms
    induction ms with
    | nil => intro acc h; exact h
    | cons metric rest ih =>
      intro acc h
      rw [List.foldl_cons]
      cases hlm : listMetrics metric with
      | error e => exact ih _ h
      | ok catalog =>
        exact ih _ (mintedIds_catalogFold rng job region accountId metric
          catalog acc h)
  exact hstep ms [] (mintedIds_nil rng)

/-- Request of one single-metric statistics fetch.
Modelled from the spec: `createGetMetricStatisticsInput` (`pkg/job`, not under
the provided source) builds the unbatched fetch input from the static job's
declared identity and the metric definition. -/
structure GetMetricStatisticsInput where
  Namespace : String
  MetricName : String
  Statistics : List String
  Dimensions : List Dimension
  Period : Int
  Length : Int
  Delay : Int
deriving DecidableEq, Repr

/-- Modelled from the spec: single-metric statistics fetch input builder. -/
def createGetMetricStatisticsInput (dims : List Dimension) (ns : String)
    (metric : MetricConfig) : GetMetricStatisticsInput :=
  { Namespace := ns
    MetricName := metric.Name
    Statistics := metric.Statistics
    Dimensions := dims
    Period := metric.Period
    Length := metric.Length
    Delay := metric.Delay }

/-- External call classes issued by one discovery triple; traced by the
embedding so that abandonment properties can state that no catalog-discovery or
data-fetch call happens. -/
inductive ApiCall where
  | tagGet
  | listMetrics (metricName : String)
  | getMetricData (filter : GetMetricDataInput)
deriving DecidableEq, Repr

/-- Oracle bundle of one (job, role, region) triple: the external collaborators
of the specification's section 6, scoped to that triple's role and region.
`identity` models `GetCallerIdentity` (an error, or a result whose account
field may be absent); `tagGet` the resource-tag lookup (`nil` slice plus error
modelled as an error); `listMetrics` the metric-catalog discovery
(`getFullMetricsList`); `getMetricData` the batched data fetch (a `nil`
response is `none`); `getStats` the single-metric statistics fetch (a `nil`
point list is `none`); `rng` the process-global random source drawn from by
the custom-namespace unit. -/
structure TripleOracles where
  identity : Except Unit (Option String)
  tagGet : Except Unit (List TaggedResource)
  listMetrics : MetricConfig → Except Unit (List CwMetric)
  getMetricData : GetMetricDataInput → Option (List MetricDataResult)
  getStats : GetMetricStatisticsInput → Option (List Int)
  rng : Nat → Nat

/-- Body of one batch worker of the discovery or custom-namespace unit
(abstract.go:299-321 / 364-385): build the batched call input from the slice,
issue the data fetch, and on a non-null response merge the per-id results back
against the same slice; a null response contributes nothing. -/
def processBatch (getMetricData : GetMetricDataInput → Option (List MetricDataResult))
    (ns : String) (length delay : Int) (roundingPeriod : Option Int)
    (batch : List CloudwatchData) : List CloudwatchData :=
  match getMetricData (createGetMetricDataInput batch ns length delay roundingPeriod) with
  | none => []
  | some results => mergeBatchResults batch results

/-- Modelled from the spec: `getFilteredMetricDatas` (`pkg/job`, not under the
provided source) intersects catalog entries with the discovered resources and
emits one query per (qualifying catalog entry x declared statistic), the
correlation id reusing a resource or metric identifier. The upstream
dimension-regexp resource matching is outside the provided source; no claim
below depends on this function's internals. -/
def getFilteredMetricDatas (region : String) (accountId : Option String)
    (job : Job) (resources : List TaggedResource) (metricsList : List CwMetric)
    (metric : MetricConfig) : List CloudwatchData :=
  (metricsList.filter (fun cwm =>
      !(decide (0 < job.DimensionNameRequirements.length) &&
        !metricDimensionsMatchNames cwm job.DimensionNameRequirements))).flatMap
    (fun cwm => metric.Statistics.map (fun stats =>
      { ID := (resources.head?).map (fun r => r.ARN)
        MetricID := some ((resources.head?).elim "" (fun r => r.ARN) ++ "/" ++
          metric.Name ++ "/" ++ stats)
        Metric := some metric.Name
        Namespace := some job.JobType
        Statistics := [stats]
        NilToZero := metric.NilToZero
        AddCloudwatchTimestamp := metric.AddCloudwatchTimestamp
        CustomTags := job.CustomTags
        Dimensions := cwm.Dimensions
        Region := some region
        AccountId := accountId
        Period := metric.Period
        Points := none
        GetMetricDataPoint := none
        GetMetricDataTimestamps := none }))

/-- Query generation of the discovery unit (abstract.go:216-251): for every
metric of the job, list the catalog through the tag gate (a failing call skips
the metric with a log), then emit the filtered queries. The embedding also
returns the catalog calls issued. -/
def getMetricDataForQueriesT (job : Job) (region : String)
    (accountId : Option String) (resources : List TaggedResource)
    (o : TripleOracles) : List CloudwatchData × List ApiCall :=
  job.Metrics.foldl
    (fun acc metric =>
      match o.listMetrics metric with
      | .error _ => (acc.1, acc.2 ++ [ApiCall.listMetrics metric.Name])
      | .ok metricsList =>
          (acc.1 ++ getFilteredMetricDatas region accountId job resources
            metricsList metric,
           acc.2 ++ [ApiCall.listMetrics metric.Name]))
    ([], [])

/-- Discovery scrape unit (abstract.go:253-327) with its issued calls traced.
A failing or empty resource-tag lookup abandons the triple before any catalog
or data call; an empty query list abandons after catalog discovery; otherwise
the query list is partitioned, one batched data fetch is issued per slice with
the job-wide window length, and the merged outputs are concatenated. Go's
early `return` on a lookup error returns the `nil` named results, hence
`([], [])`. -/
def scrapeDiscoveryJobUsingMetricDataT (job : Job) (region : String)
    (accountId : Option String) (svcNamespace : String) (metricsPerQuery : Nat)
    (roundingPeriod : Option Int) (o : TripleOracles) :
    (List TaggedResource × List CloudwatchData) × List ApiCall :=
  match o.tagGet with
  | .error _ => (([], []), [ApiCall.tagGet])
  | .ok resources =>
    if resources = [] then (([], []), [ApiCall.tagGet])
    else
      let qc := getMetricDataForQueriesT job region accountId resources o
      if qc.1 = [] then ((resources, []), ApiCall.tagGet :: qc.2)
      else
        let length := getMetricDataInputLength job
        let batches := partitionBatches metricsPerQuery qc.1
        let cw := (batches.map (fun b =>
          processBatch o.getMetricData svcNamespace length job.Delay
            roundingPeriod b)).flatten
        ((resources, cw),
          ApiCall.tagGet :: qc.2 ++ batches.map (fun b =>
            ApiCall.getMetricData (createGetMetricDataInput b svcNamespace
              length job.Delay roundingPeriod)))

/-- Custom-namespace scrape unit (abstract.go:329-392): generate queries from
the namespace's own catalog, then partition and merge exactly as the discovery
unit, with the job's own length/delay/rounding parameters. -/
def scrapeCustomNamespaceJobUsingMetricDataT (job : CustomNamespaceConf)
    (region : String) (accountId : Option String) (metricsPerQuery : Nat)
    (o : TripleOracles) : List CloudwatchData :=
  let qs := getMetricDataForQueriesForCustomNamespace job region accountId
    o.listMetrics o.rng
  if qs = [] then []
  else
    ((partitionBatches metricsPerQuery qs).map (fun b =>
      processBatch o.getMetricData job.Namespace job.Length job.Delay
        job.RoundingPeriod b)).flatten

/-- Query record built by one static-unit worker before its fetch
(abstract.go:168-180). The source's struct literal sets no `MetricID` and no
`Period`, leaving the zero values (`nil` and 0). -/
def staticQueryData (resource : StaticConf) (region : String)
    (accountId : Option String) (metric : MetricConfig) : CloudwatchData :=
  { ID := some resource.Name
    MetricID := none
    Metric := some metric.Name
    Namespace := some resource.Namespace
    Statistics := metric.Statistics
    NilToZero := metric.NilToZero
    AddCloudwatchTimestamp := metric.AddCloudwatchTimestamp
    CustomTags := resource.CustomTags
    Dimensions := resource.Dimensions
    Region := some region
    AccountId := accountId
    Period := 0
    Points := none
    GetMetricDataPoint := none
    GetMetricDataTimestamps := none }

/-- Body of one static-unit worker (abstract.go:160-196): build the query
record, issue the single-metric statistics fetch, and append the record to the
contribution exactly when the fetch produced a non-null point list
(`data.Points != nil`). -/
def staticStep (resource : StaticConf) (region : String)
    (accountId : Option String)
    (get : GetMetricStatisticsInput → Option (List Int))
    (cw : List CloudwatchData) (metric : MetricConfig) : List CloudwatchData :=
  let data := staticQueryData resource region accountId metric
  let points := get (createGetMetricStatisticsInput data.Dimensions
    resource.Namespace metric)
  if points.isSome then cw ++ [{ data with Points := points }] else cw

/-- Static scrape unit (abstract.go:153-200): one worker per metric
definition. `createStaticDimensions` is the identity here because the
embedding's static dimensions are already `Dimension` values. -/
def scrapeStaticJob (resource : StaticConf) (region : String)
    (accountId : Option String)
    (get : GetMetricStatisticsInput → Option (List Int)) :
    List CloudwatchData :=
  resource.Metrics.foldl (staticStep resource region accountId get) []

theorem staticStep_eq (resource : StaticConf) (region : String)
    (accountId : Option String)
    (get : GetMetricStatisticsInput → Option (List Int))
    (cw : List CloudwatchData) (metric : MetricConfig) :
    staticStep resource region accountId get cw metric =
      cw ++ ((get (createGetMetricStatisticsInput resource.Dimensions
        resource.Namespace metric)).map (fun pts =>
          { staticQueryData resource region accountId metric with
              Points := some pts })).toList := by
  rw [staticStep]
  cases hg : get (createGetMetricStatisticsInput resource.Dimensions
      resource.Namespace metric) with
  | none =>
    have hg' : get (createGetMetricStatisticsInput
        (staticQueryData resource region accountId metric).Dimensions
        resource.Namespace metric) = none := hg
    simp [hg']
  | some pts =>
    have hg' : get (createGetMetricStatisticsInput
        (staticQueryData resource region accountId metric).Dimensions
        resource.Namespace metric) = some pts := hg
    simp [hg']

theorem scrapeStaticJob_foldl_acc (resource : StaticConf) (region : String)
    (accountId : Option String)
    (get : GetMetricStatisticsInput → Option (List Int))
    (ms : List MetricConfig) :
    ∀ acc : List CloudwatchData,
      ms.foldl (staticStep resource region accountId get) acc =
      acc ++ ms.filterMap (fun metric =>
        (get (createGetMetricStatisticsInput resource.Dimensions
          resource.Namespace metric)).map (fun pts =>
            { staticQueryData resource region accountId metric with
                Points := some pts })) := by
  induction ms with
  | nil => intro acc; simp
  | cons m ms ih =>
    intro acc
    rw [List.foldl_cons, staticStep_eq, List.filterMap_cons]
    cases hg : get (createGetMetricStatisticsInput resource.Dimensions
        resource.Namespace m) with
    | none => simp only [hg, Option.map_none', Option.toList_none,
        List.append_nil, ih]
    | some pts =>
      simp only [hg, Option.map_some', Option.toList_some, ih,
        List.append_assoc, List.singleton_append]

/-- The static unit's contribution is exactly one record per metric whose
fetch returned a non-null point list, carrying those points. -/
theorem scrapeStaticJob_eq_filterMap (resource : StaticConf) (region : String)
    (accountId : Option String)
    (get : GetMetricStatisticsInput → Option (List Int)) :
    scrapeStaticJob resource region accountId get =
      resource.Metrics.filterMap (fun metric =>
        (get (createGetMetricStatisticsInput resource.Dimensions
          resource.Namespace metric)).map (fun pts =>
            { staticQueryData resource region accountId metric with
                Points := some pts })) := by
  rw [scrapeStaticJob, scrapeStaticJob_foldl_acc, List.nil_append]

/-- Gate-relevant events of one worker, in program order: acquiring/releasing
the data-class gate (`cloudwatchSemaphore`), the begin/end of a data-fetch
call, and the same for the tag-class gate (`tagSemaphore`). -/
inductive GateEv where
  | acqData
  | relData
  | startData
  | finData
  | acqTag
  | relTag
deriving DecidableEq, Repr

/-- Event trace of one static-unit worker (abstract.go:160-196): acquire the
data gate, issue the single-metric fetch, release via defer on every exit
path. -/
def staticWorkerTrace : List GateEv :=
  [GateEv.acqData, GateEv.startData, GateEv.finData, GateEv.relData]

/-- Event trace of one custom-namespace batch worker (abstract.go:356-387):
acquire the data gate, issue the batched fetch, release via defer. -/
def customBatchWorkerTrace : List GateEv :=
  [GateEv.acqData, GateEv.startData, GateEv.finData, GateEv.relData]

/-- Event trace of one discovery batch worker (abstract.go:297-322): the
batched data fetch is issued with no data-gate acquisition at all —
`scrapeDiscoveryJobUsingMetricData` does not even receive the
`cloudwatchSemaphore` channel. -/
def discoveryBatchWorkerTrace : List GateEv :=
  [GateEv.startData, GateEv.finData]

/-- Occurrences of an event in a trace segment. -/
def countEv (e : GateEv) (l : List GateEv) : Nat :=
  (l.filter (fun x => decide (x = e))).length

/-- Number of data-gate permits a worker holds after its first `p` events. -/
def gateHolds (t : List GateEv) (p : Nat) : Nat :=
  countEv GateEv.acqData (t.take p) - countEv GateEv.relData (t.take p)

/-- Number of data-fetch calls a worker has in flight after its first `p`
events. -/
def gateInFlight (t : List GateEv) (p : Nat) : Nat :=
  countEv GateEv.startData (t.take p) - countEv GateEv.finData (t.take p)

/-- Well-bracketed trace: no release before the matching acquire and no fetch
end before its begin, in any prefix. -/
def TraceWF (t : List GateEv) : Prop :=
  ∀ p : Nat,
    countEv GateEv.relData (t.take p) ≤ countEv GateEv.acqData (t.take p) ∧
    countEv GateEv.finData (t.take p) ≤ countEv GateEv.startData (t.take p)

/-- Gated fetch: at every point of the trace, every in-flight data fetch is
covered by a held data-gate permit. -/
def FetchGated (t : List GateEv) : Prop :=
  ∀ p : Nat, gateInFlight t p ≤ gateHolds t p

theorem take_stable (t : List GateEv) (p : Nat) (hp : t.length ≤ p) :
    t.take p = t.take t.length := by
  rw [List.take_of_length_le hp, List.take_length]

theorem traceWF_of_bounded (t : List GateEv)
    (h : ∀ p < t.length + 1,
      countEv GateEv.relData (t.take p) ≤ countEv GateEv.acqData (t.take p) ∧
      countEv GateEv.finData (t.take p) ≤ countEv GateEv.startData (t.take p)) :
    TraceWF t := by
  intro p
  rcases Nat.lt_or_ge p (t.length + 1) with hp | hp
  · exact h p hp
  · rw [take_stable t p (by omega)]
    exact h t.length (by omega)

theorem fetchGated_of_bounded (t : List GateEv)
    (h : ∀ p < t.length + 1, gateInFlight t p ≤ gateHolds t p) :
    FetchGated t := by
  intro p
  rcases Nat.lt_or_ge p (t.length + 1) with hp | hp
  · exact h p hp
  · rw [gateInFlight, gateHolds, take_stable t p (by omega)]
    exact h t.length (by omega)

/-- System state of the data-gate semaphore discipline: a capacity (the
buffered-channel size) and one (trace, position) pair per spawned worker. -/
structure GateSys where
  cap : Nat
  workers : List (List GateEv × Nat)

/-- Total data-gate permits held across all workers. -/
def totalHolds (s : GateSys) : Nat :=
  (s.workers.map (fun w => gateHolds w.1 w.2)).sum

/-- Total data-fetch calls in flight across all workers. -/
def totalInFlight (s : GateSys) : Nat :=
  (s.workers.map (fun w => gateInFlight w.1 w.2)).sum

/-- Interleaving semantics: one worker performs its next event; a data-gate
acquire (a send on the buffered channel) is only enabled while fewer than
`cap` permits are held — exactly the blocking behaviour of
`cloudwatchSemaphore <- struct{}{}` on a channel of capacity `cap`. -/
inductive GateStep : GateSys → GateSys → Prop where
  | mk (s : GateSys) (i : Nat) (w : List GateEv × Nat) (e : GateEv)
      (hw : s.workers[i]? = some w)
      (he : w.1[w.2]? = some e)
      (hgate : e = GateEv.acqData → totalHolds s < s.cap) :
      GateStep s ⟨s.cap, s.workers.set i (w.1, w.2 + 1)⟩

/-- Initial state: all workers at position 0. -/
def initSys (cap : Nat) (traces : List (List GateEv)) : GateSys :=
  ⟨cap, traces.map (fun t => (t, 0))⟩

/-- Reachability under the interleaving semantics. -/
def GateReachable (s s' : GateSys) : Prop :=
  Relation.ReflTransGen GateStep s s'

theorem countEv_append (e : GateEv) (l l' : List GateEv) :
    countEv e (l ++ l') = countEv e l + countEv e l' := by
  simp [countEv, List.filter_append]

theorem countEv_take_succ (e : GateEv) (t : List GateEv) (p : Nat)
    (x : GateEv) (hx : t[p]? = some x) :
    countEv e (t.take (p + 1)) =
      countEv e (t.take p) + (if x = e then 1 else 0) := by
  rw [List.take_succ, hx, countEv_append]
  congr 1
  by_cases hxe : x = e
  · simp [countEv, hxe]
  · simp [countEv, hxe]

theorem gateHolds_step (t : List GateEv) (p : Nat) (e : GateEv)
    (he : t[p]? = some e) (hwf : TraceWF t) :
    gateHolds t (p + 1) =
      if e = GateEv.acqData then gateHolds t p + 1
      else if e = GateEv.relData then gateHolds t p - 1
      else gateHolds t p := by
  have ha := countEv_take_succ GateEv.acqData t p e he
  have hr := countEv_take_succ GateEv.relData t p e he
  have hwfp := (hwf p).1
  rw [gateHolds, gateHolds, ha, hr]
  cases e <;> simp <;> omega

theorem gateInFlight_step (t : List GateEv) (p : Nat) (e : GateEv)
    (he : t[p]? = some e) (hwf : TraceWF t) :
    gateInFlight t (p + 1) =
      if e = GateEv.startData then gateInFlight t p + 1
      else if e = GateEv.finData then gateInFlight t p - 1
      else gateInFlight t p := by
  have hs := countEv_take_succ GateEv.startData t p e he
  have hf := countEv_take_succ GateEv.finData t p e he
  have hwfp := (hwf p).2
  rw [gateInFlight, gateInFlight, hs, hf]
  cases e <;> simp <;> omega

theorem sum_map_set {β : Type} (f : β → Nat) :
    ∀ (l : List β) (i : Nat) (w x : β), l[i]? = some w →
      ((l.set i x).map f).sum + f w = (l.map f).sum + f x := by
  intro l
  induction l with
  | nil => intro i w x h; simp at h
  | cons a l ih =>
    intro i w x h
    cases i with
    | zero =>
      simp only [List.getElem?_cons_zero, Option.some.injEq] at h
      subst h
      simp only [List.set_cons_zero, List.map_cons, List.sum_cons]
      omega
    | succ i =>
      simp only [List.getElem?_cons_succ] at h
      simp only [List.set_cons_succ, List.map_cons, List.sum_cons]
      have := ih i w x h
      omega

/-- Invariant of the gated system: held permits never exceed capacity, and
every worker's trace is well bracketed. -/
def GateInv (s : GateSys) : Prop :=
  totalHolds s ≤ s.cap ∧ ∀ w ∈ s.workers, TraceWF w.1

theorem gateStep_cap {s s' : GateSys} (h : GateStep s s') : s'.cap = s.cap := by
  cases h with
  | mk i w e hw he hgate => rfl

theorem gateStep_inv {s s' : GateSys} (h : GateStep s s') (hinv : GateInv s) :
    GateInv s' := by
  cases h with
  | mk i w e hw he hgate =>
  rcases hinv with ⟨hcap, hwf⟩
  have hwmem : w ∈ s.workers := by
    rcases List.getElem?_eq_some_iff.mp hw with ⟨hi, hget⟩
    exact hget ▸ List.getElem_mem hi
  have hwfw : TraceWF w.1 := hwf w hwmem
  constructor
  · have hsum := sum_map_set (fun w => gateHolds w.1 w.2) s.workers i w
      (w.1, w.2 + 1) hw
    have hstep := gateHolds_step w.1 w.2 e he hwfw
    dsimp only at hsum
    show totalHolds ⟨s.cap, s.workers.set i (w.1, w.2 + 1)⟩ ≤ s.cap
    unfold totalHolds at hcap ⊢
    change (List.map (fun w => gateHolds w.1 w.2)
      (s.workers.set i (w.1, w.2 + 1))).sum ≤ s.cap
    cases e with
    | acqData =>
      have hlt := hgate rfl
      unfold totalHolds at hlt
      simp at hstep
      rw [hstep] at hsum
      omega
    | relData =>
      simp at hstep
      rw [hstep] at hsum
      omega
    | startData =>
      simp at hstep
      rw [hstep] at hsum
      omega
    | finData =>
      simp at hstep
      rw [hstep] at hsum
      omega
    | acqTag =>
      simp at hstep
      rw [hstep] at hsum
      omega
    | relTag =>
      simp at hstep
      rw [hstep] at hsum
      omega
  · intro w' hw'
    rcases List.mem_or_eq_of_mem_set hw' with hmem | heq
    · exact hwf w' hmem
    · rw [heq]
      exact hwfw

theorem gateReachable_inv {s s' : GateSys} (h : GateReachable s s')
    (hinv : GateInv s) : GateInv s' := by
  induction h with
  | refl => exact hinv
  | tail hsteps hstep ih => exact gateStep_inv hstep ih

theorem gateReachable_cap {s s' : GateSys} (h : GateReachable s s') :
    s'.cap = s.cap := by
  induction h with
  | refl => rfl
  | tail hsteps hstep ih => rw [gateStep_cap hstep, ih]

theorem gateStep_traces (P : List GateEv → Prop) {s s' : GateSys}
    (h : GateStep s s') (ht : ∀ w ∈ s.workers, P w.1) :
    ∀ w ∈ s'.workers, P w.1 := by
  cases h with
  | mk i w e hw he hgate =>
  intro w' hw'
  rcases List.mem_or_eq_of_mem_set hw' with hmem | heq
  · exact ht w' hmem
  · rw [heq]
    rcases List.getElem?_eq_some_iff.mp hw with ⟨hi, hget⟩
    exact ht w (hget ▸ List.getElem_mem hi)

theorem gateReachable_traces (P : List GateEv → Prop) {s s' : GateSys}
    (h : GateReachable s s') (ht : ∀ w ∈ s.workers, P w.1) :
    ∀ w ∈ s'.workers, P w.1 := by
  induction h with
  | refl => exact ht
  | tail hsteps hstep ih => exact gateStep_traces P hstep ih

/-- Boundedness of a gated system: starting from workers whose traces are
well bracketed and whose data fetches sit inside the gate, every reachable
state has at most `cap` data fetches in flight. -/
theorem gated_system_inFlight_le_cap (cap : Nat) (traces : List (List GateEv))
    (hwf : ∀ t ∈ traces, TraceWF t) (hfg : ∀ t ∈ traces, FetchGated t)
    (s' : GateSys) (hreach : GateReachable (initSys cap traces) s') :
    totalInFlight s' ≤ cap := by
  have hinit : GateInv (initSys cap traces) := by
    constructor
    · have : totalHolds (initSys cap traces) = 0 := by
        rw [totalHolds]
        apply List.sum_eq_zero
        intro x hx
        rcases List.mem_map.mp hx with ⟨w, hwmem, hwx⟩
        rcases List.mem_map.mp hwmem with ⟨t, htmem, htw⟩
        rw [← hwx, ← htw]
        simp [gateHolds, countEv]
      omega
    · intro w hwmem
      rcases List.mem_map.mp hwmem with ⟨t, htmem, htw⟩
      rw [← htw]
      exact hwf t htmem
  have hinv := gateReachable_inv hreach hinit
  have hcap := gateReachable_cap hreach
  have hfg' : ∀ w ∈ s'.workers, FetchGated w.1 := by
    apply gateReachable_traces FetchGated hreach
    intro w hwmem
    rcases List.mem_map.mp hwmem with ⟨t, htmem, htw⟩
    rw [← htw]
    exact hfg t htmem
  have hle : totalInFlight s' ≤ totalHolds s' := by
    rw [totalInFlight, totalHolds]
    apply List.sum_le_sum
    intro w hwmem
    exact hfg' w hwmem w.2
  have := hinv.1
  rw [hcap] at this
  exact le_trans hle this

theorem staticWorkerTrace_wf : TraceWF staticWorkerTrace :=
  traceWF_of_bounded _ (by decide)

theorem staticWorkerTrace_gated : FetchGated staticWorkerTrace :=
  fetchGated_of_bounded _ (by decide)

theorem customBatchWorkerTrace_wf : TraceWF customBatchWorkerTrace :=
  traceWF_of_bounded _ (by decide)

theorem customBatchWorkerTrace_gated : FetchGated customBatchWorkerTrace :=
  fetchGated_of_bounded _ (by decide)

theorem discoveryBatchWorkerTrace_wf : TraceWF discoveryBatchWorkerTrace :=
  traceWF_of_bounded _ (by decide)

/-- Identity of one (job, role, region) triple across the three job kinds,
by position in the configuration. -/
inductive TripleId where
  | discovery (j r g : Nat)
  | static (j r g : Nat)
  | custom (j r g : Nat)
deriving DecidableEq, Repr

/-- Scrape configuration (`config.ScrapeConf`): the three job lists. -/
structure ScrapeConf where
  DiscoveryJobs : List Job
  Static : List StaticConf
  CustomNamespace : List CustomNamespaceConf

/-- Failure of identity resolution as the orchestrator tests it
(abstract.go:48/90/119): an error, or a response whose account field is nil. -/
def identityFails : Except Unit (Option String) → Bool
  | .error _ => true
  | .ok none => true
  | .ok (some _) => false

/-- Log line emitted on identity-resolution failure (abstract.go:49/91/120). -/
def accountIdErrorLog : String := "Couldn\x27t get account Id"

/-- Body of one discovery goroutine of `ScrapeAwsData` (abstract.go:44-77):
resolve the account identity (abandon with one log entry on error or missing
account), run the discovery unit, and contribute its output only when both the
resource list and the metric list are non-empty. Logging on the successful
path is not modelled. -/
def discoveryTripleRun (job : Job) (region : String) (svcNS : String → String)
    (metricsPerQuery : Nat) (o : TripleOracles) :
    List TaggedResource × List CloudwatchData × List String :=
  match o.identity with
  | .error _ => ([], [], [accountIdErrorLog])
  | .ok none => ([], [], [accountIdErrorLog])
  | .ok (some account) =>
    let res := scrapeDiscoveryJobUsingMetricDataT job region (some account)
      (svcNS job.JobType) metricsPerQuery job.RoundingPeriod o
    if res.1.1 ≠ [] ∧ res.1.2 ≠ [] then (res.1.1, res.1.2, [])
    else ([], [], [])

/-- Body of one static goroutine of `ScrapeAwsData` (abstract.go:86-106). -/
def staticTripleRun (job : StaticConf) (region : String) (o : TripleOracles) :
    List CloudwatchData × List String :=
  match o.identity with
  | .error _ => ([], [accountIdErrorLog])
  | .ok none => ([], [accountIdErrorLog])
  | .ok (some account) =>
    (scrapeStaticJob job region (some account) o.getStats, [])

/-- Body of one custom-namespace goroutine of `ScrapeAwsData`
(abstract.go:115-145). -/
def customTripleRun (job : CustomNamespaceConf) (region : String)
    (metricsPerQuery : Nat) (o : TripleOracles) :
    List CloudwatchData × List String :=
  match o.identity with
  | .error _ => ([], [accountIdErrorLog])
  | .ok none => ([], [accountIdErrorLog])
  | .ok (some account) =>
    (scrapeCustomNamespaceJobUsingMetricDataT job region (some account)
      metricsPerQuery o, [])

/-- The discovery (job, role, region) triples of a configuration, in the
nesting order of the source's loops (abstract.go:40-42). -/
def discoveryTriples (cfg : ScrapeConf) : List (TripleId × Job × String) :=
  cfg.DiscoveryJobs.enum.flatMap (fun jj =>
    jj.2.Roles.enum.flatMap (fun rr =>
      jj.2.Regions.enum.map (fun gg =>
        (TripleId.discovery jj.1 rr.1 gg.1, jj.2, gg.2))))

/-- The static triples (abstract.go:82-84). -/
def staticTriples (cfg : ScrapeConf) : List (TripleId × StaticConf × String) :=
  cfg.Static.enum.flatMap (fun jj =>
    jj.2.Roles.enum.flatMap (fun rr =>
      jj.2.Regions.enum.map (fun gg =>
        (TripleId.static jj.1 rr.1 gg.1, jj.2, gg.2))))

/-- The custom-namespace triples (abstract.go:111-113). -/
def customTriples (cfg : ScrapeConf) :
    List (TripleId × CustomNamespaceConf × String) :=
  cfg.CustomNamespace.enum.flatMap (fun jj =>
    jj.2.Roles.enum.flatMap (fun rr =>
      jj.2.Regions.enum.map (fun gg =>
        (TripleId.custom jj.1 rr.1 gg.1, jj.2, gg.2))))

/-- Orchestrator `ScrapeAwsData` (abstract.go:19-151): one independent unit per
(job, role, region) triple across all three kinds, whose contributions are
appended to the two aggregate collections. The concurrent mutex-guarded
appends are embedded in submission order; each triple's oracle bundle is
selected by its `TripleId`, so a triple's contribution depends only on its own
collaborators. `svcNS` models the `SupportedServices.GetService` namespace
lookup (external table). -/
def ScrapeAwsDataT (cfg : ScrapeConf) (metricsPerQuery : Nat)
    (svcNS : String → String) (o : TripleId → TripleOracles) :
    List TaggedResource × List CloudwatchData :=
  let disc := (discoveryTriples cfg).map (fun t =>
    discoveryTripleRun t.2.1 t.2.2 svcNS metricsPerQuery (o t.1))
  let stat := (staticTriples cfg).map (fun t =>
    staticTripleRun t.2.1 t.2.2 (o t.1))
  let cust := (customTriples cfg).map (fun t =>
    customTripleRun t.2.1 t.2.2 metricsPerQuery (o t.1))
  (disc.flatMap (fun c => c.1),
   disc.flatMap (fun c => c.2.1) ++ stat.flatMap (fun c => c.1) ++
     cust.flatMap (fun c => c.1))

theorem partitionBatches_mem_fuel (M : Nat) (hM : 0 < M) :
    ∀ (n : Nat) (l : List α) (b : List α), l.length ≤ n →
      b ∈ partitionBatches M l → b.length ≤ M ∧ b ≠ [] := by
  intro n
  induction n with
  | zero =>
    intro l b hl hb
    have : l = [] := List.length_eq_zero.mp (Nat.le_zero.mp hl)
    subst this
    rw [partitionBatches_nil] at hb
    exact absurd hb (List.not_mem_nil b)
  | succ n ih =>
    intro l b hl hb
    cases l with
    | nil =>
      rw [partitionBatches_nil] at hb
      exact absurd hb (List.not_mem_nil b)
    | cons a l =>
      rw [partitionBatches_cons M (by omega) a l] at hb
      rcases List.mem_cons.mp hb with hb | hb
      · subst hb
        refine ⟨List.length_take_le M (a :: l), ?_⟩
        have : M ≠ 0 := by omega
        cases M with
        | zero => exact absurd rfl this
        | succ m => simp [List.take_cons]
      · have hlen : ((a :: l).drop M).length ≤ n := by
          simp only [List.length_drop, List.length_cons]
          simp only [List.length_cons] at hl
          omega
        exact ih _ b hlen hb

theorem partitionBatches_mem (M : Nat) (hM : 0 < M) (l : List α)
    (b : List α) (hb : b ∈ partitionBatches M l) : b.length ≤ M ∧ b ≠ [] :=
  partitionBatches_mem_fuel M hM l.length l b (Nat.le_refl _) hb

/-- Concrete query record used by the closed instances below. -/
def sampleQuery (id : String) : CloudwatchData :=
  { ID := some id
    MetricID := some id
    Metric := some "CPUUtilization"
    Namespace := some "AWS/ALB"
    Statistics := ["Average"]
    NilToZero := none
    AddCloudwatchTimestamp := none
    CustomTags := []
    Dimensions := []
    Region := some "eu-west-1"
    AccountId := some "111111111111"
    Period := 60
    Points := none
    GetMetricDataPoint := none
    GetMetricDataTimestamps := none }

/-- C1: for every query list and every batch size M > 0, the batching loop
shared by the Discovery and CustomNamespace units (`partitionBatches`,
abstract.go:288-303 and 350-368) yields ceil(N/M) batches — the number the
source computes as `partition` and hands to `wg.Add`, spawning exactly one
worker per slice — whose concatenation reproduces the original list with no
duplication and no omission, each slice contiguous, non-empty and of length at
most M (the last possibly shorter). -/
theorem C1_partition_correct (M : Nat) (hM : 0 < M) (l : List CloudwatchData) :
    (partitionBatches M l).length = (l.length + M - 1) / M ∧
    (partitionBatches M l).flatten = l ∧
    ∀ b ∈ partitionBatches M l, b.length ≤ M ∧ b ≠ [] :=
  ⟨partitionBatches_length M hM l, partitionBatches_flatten M hM l,
    fun b hb => partitionBatches_mem M hM l b hb⟩

theorem C1_partition_correct_witness :
    (partitionBatches 2 ((["a", "b", "c", "d", "e"].map sampleQuery))).length =
      ((["a", "b", "c", "d", "e"].map sampleQuery).length + 2 - 1) / 2 ∧
    (partitionBatches 2 ((["a", "b", "c", "d", "e"].map sampleQuery))).flatten =
      ["a", "b", "c", "d", "e"].map sampleQuery ∧
    ∀ b ∈ partitionBatches 2 ((["a", "b", "c", "d", "e"].map sampleQuery)),
      b.length ≤ 2 ∧ b ≠ [] :=
  C1_partition_correct 2 (by decide) _

/-- C2: in the batch merge step (abstract.go:305-321 and 370-386), a returned
result for correlation id X updates only the query with id X in the same
slice — dropping the result from the response does not change anything else; a
returned id with no matching query in the slice is discarded without error;
when the matched result's value sequence is empty the query's result slot is
left untouched, while a non-empty sequence sets the slot to the first value
and its matching timestamp. -/
theorem C2_merge_by_correlation_id (input : List CloudwatchData)
    (r : MetricDataResult) :
    ((∀ q ∈ input, q.MetricID ≠ some r.Id) → ∀ rs₁ rs₂ : List MetricDataResult,
        mergeBatchResults input (rs₁ ++ r :: rs₂) =
          mergeBatchResults input (rs₁ ++ rs₂)) ∧
    (∀ q, findGetMetricDataById input r.Id = some q →
        q ∈ input ∧ q.MetricID = some r.Id) ∧
    ((input.map (fun d => d.MetricID)).Nodup → ∀ q ∈ input,
        q.MetricID = some r.Id →
        mergeBatchResults input [r] = [updateFromResult q r]) ∧
    (r.Values = [] → ∀ q, updateFromResult q r = q) ∧
    (r.Values ≠ [] → ∀ q,
        (updateFromResult q r).GetMetricDataPoint = r.Values.head? ∧
        (updateFromResult q r).GetMetricDataTimestamps = r.Timestamps.head?) := by
  refine ⟨?_, ?_, ?_, ?_, ?_⟩
  · intro h rs₁ rs₂
    have hf : findGetMetricDataById input r.Id = none :=
      findGetMetricDataById_eq_none h
    have : rs₁ ++ r :: rs₂ = rs₁ ++ [r] ++ rs₂ := by simp
    rw [this, mergeBatchResults_append, mergeBatchResults_append,
      mergeBatchResults_singleton, hf, mergeBatchResults_append]
    simp
  · intro q hq
    exact findGetMetricDataById_mem hq
  · intro hnd q hq hid
    rw [mergeBatchResults_singleton, findGetMetricDataById_unique hnd hq hid]
    rfl
  · intro h q
    rw [updateFromResult, if_pos h]
  · intro h q
    rw [updateFromResult, if_neg h]
    exact ⟨rfl, rfl⟩

theorem C2_merge_by_correlation_id_witness :
    mergeBatchResults [sampleQuery "A"] [⟨"X", [2], [7]⟩] =
      mergeBatchResults [sampleQuery "A"] [] ∧
    mergeBatchResults [sampleQuery "A"] [⟨"A", [1], [5]⟩] =
      [updateFromResult (sampleQuery "A") ⟨"A", [1], [5]⟩] ∧
    (updateFromResult (sampleQuery "A") ⟨"A", [1], [5]⟩).GetMetricDataPoint =
      ([1] : List Int).head? :=
  ⟨(C2_merge_by_correlation_id [sampleQuery "A"] ⟨"X", [2], [7]⟩).1
      (by decide) [] [],
   (C2_merge_by_correlation_id [sampleQuery "A"] ⟨"A", [1], [5]⟩).2.2.1
      (by decide) (sampleQuery "A") (by decide) (by decide),
   ((C2_merge_by_correlation_id [sampleQuery "A"] ⟨"A", [1], [5]⟩).2.2.2.2
      (by decide) (sampleQuery "A")).1⟩

/-- C7: in the Discovery and CustomNamespace merge (abstract.go:306-321 and
371-386), the batch's contribution contains exactly those queries whose
correlation id was echoed in the batch's response — a match with an empty
value sequence is still emitted — while a query whose id does not appear in
the response is omitted from the output entirely, not emitted with an empty
result slot. -/
theorem C7_contribution_exactly_echoed (input : List CloudwatchData)
    (results : List MetricDataResult) :
    (∀ q ∈ input,
      ((∃ r ∈ results, some r.Id = q.MetricID) ↔
        ∃ q' ∈ mergeBatchResults input results, q'.MetricID = q.MetricID)) ∧
    (∀ q' ∈ mergeBatchResults input results,
      (∃ r ∈ results, some r.Id = q'.MetricID) ∧
      ∃ q ∈ input, q.MetricID = q'.MetricID) := by
  have hout : ∀ q' ∈ mergeBatchResults input results,
      (∃ r ∈ results, some r.Id = q'.MetricID) ∧
      ∃ q ∈ input, q.MetricID = q'.MetricID := by
    intro q' hq'
    rcases mem_mergeBatchResults.mp hq' with ⟨r, hr, q, hf, hq⟩
    rcases findGetMetricDataById_mem hf with ⟨hqin, hqid⟩
    have hid' : q'.MetricID = some r.Id := by
      rw [hq, updateFromResult_MetricID, hqid]
    exact ⟨⟨r, hr, hid'.symm⟩, ⟨q, hqin, by rw [hqid, hid']⟩⟩
  refine ⟨?_, hout⟩
  intro q hq
  constructor
  · rintro ⟨r, hr, hid⟩
    have hsome : (input.find? (fun d => decide (d.MetricID = some r.Id))).isSome := by
      rw [List.find?_isSome]
      exact ⟨q, hq, decide_eq_true hid.symm⟩
    rcases Option.isSome_iff_exists.mp hsome with ⟨q'', hfind⟩
    have hfind' : findGetMetricDataById input r.Id = some q'' := hfind
    rcases findGetMetricDataById_mem hfind' with ⟨hq''in, hq''id⟩
    refine ⟨updateFromResult q'' r, ?_, ?_⟩
    · exact mem_mergeBatchResults.mpr ⟨r, hr, q'', hfind', rfl⟩
    · rw [updateFromResult_MetricID, hq''id, hid]
  · rintro ⟨q', hq', hid⟩
    rcases (hout q' hq').1 with ⟨r, hr, hid'⟩
    exact ⟨r, hr, by rw [hid', hid]⟩

theorem C7_contribution_exactly_echoed_witness :
    ((∃ r ∈ [(⟨"A", [], []⟩ : MetricDataResult)],
        some r.Id = (sampleQuery "A").MetricID) ↔
      ∃ q' ∈ mergeBatchResults [sampleQuery "A", sampleQuery "B"]
          [⟨"A", [], []⟩],
        q'.MetricID = (sampleQuery "A").MetricID) ∧
    ((∃ r ∈ [(⟨"A", [], []⟩ : MetricDataResult)],
        some r.Id = (sampleQuery "B").MetricID) ↔
      ∃ q' ∈ mergeBatchResults [sampleQuery "A", sampleQuery "B"]
          [⟨"A", [], []⟩],
        q'.MetricID = (sampleQuery "B").MetricID) :=
  ⟨(C7_contribution_exactly_echoed [sampleQuery "A", sampleQuery "B"]
      [⟨"A", [], []⟩]).1 (sampleQuery "A") (by decide),
   (C7_contribution_exactly_echoed [sampleQuery "A", sampleQuery "B"]
      [⟨"A", [], []⟩]).1 (sampleQuery "B") (by decide)⟩

/-- C8: each query's result slot is written exactly once by the merge step —
the merged output holds exactly one record for the query's id — if and only if
a matching result arrives, the slot being filled with the first value and
matching timestamp when the value sequence is non-empty and left untouched
when it is empty; a query receiving no matching result is left with its slot
unchanged (its id does not occur in the output at all). The source performs
the write on the record returned by the lookup, each batch owning a disjoint
slice, so no concurrent write can occur. -/
theorem C8_slot_updated_exactly_once (input : List CloudwatchData)
    (results : List MetricDataResult)
    (hin : (input.map (fun d => d.MetricID)).Nodup)
    (hres : (results.map (fun r => r.Id)).Nodup) :
    ∀ q ∈ input, ∀ x : String, q.MetricID = some x →
      ((∀ r ∈ results, r.Id ≠ x) →
        (mergeBatchResults input results).filter
          (fun d => decide (d.MetricID = some x)) = []) ∧
      (∀ r ∈ results, r.Id = x →
        (mergeBatchResults input results).filter
          (fun d => decide (d.MetricID = some x)) = [updateFromResult q r] ∧
        (r.Values ≠ [] →
          (updateFromResult q r).GetMetricDataPoint = r.Values.head? ∧
          (updateFromResult q r).GetMetricDataTimestamps = r.Timestamps.head?) ∧
        (r.Values = [] → updateFromResult q r = q)) := by
  intro q hq x hx
  constructor
  · intro h
    exact filter_mergeBatchResults_eq_nil h
  · intro r hr hrid
    refine ⟨filter_mergeBatchResults_eq_singleton hin hres hq hx hr hrid,
      ?_, ?_⟩
    · intro hv
      rw [updateFromResult, if_neg hv]
      exact ⟨rfl, rfl⟩
    · intro hv
      rw [updateFromResult, if_pos hv]

theorem C8_slot_updated_exactly_once_witness :
    ((mergeBatchResults [sampleQuery "A", sampleQuery "B"]
        [⟨"A", [3], [9]⟩]).filter
      (fun d => decide (d.MetricID = some "B")) = []) ∧
    ((mergeBatchResults [sampleQuery "A", sampleQuery "B"]
        [⟨"A", [3], [9]⟩]).filter
      (fun d => decide (d.MetricID = some "A")) =
        [updateFromResult (sampleQuery "A") ⟨"A", [3], [9]⟩]) :=
  ⟨((C8_slot_updated_exactly_once [sampleQuery "A", sampleQuery "B"]
      [⟨"A", [3], [9]⟩] (by decide) (by decide) (sampleQuery "B") (by decide)
      "B" (by decide)).1 (by decide)),
   ((C8_slot_updated_exactly_once [sampleQuery "A", sampleQuery "B"]
      [⟨"A", [3], [9]⟩] (by decide) (by decide) (sampleQuery "A") (by decide)
      "A" (by decide)).2 ⟨"A", [3], [9]⟩ (by decide) (by decide)).1⟩

/-- C4: when the resource-tag lookup of a discovery triple fails or returns
zero resources (abstract.go:266-278), the triple's contribution is empty
resources and empty queries, and the only call it has issued is the tag lookup
itself — no catalog-discovery and no data-fetch call is made. -/
theorem C4_discovery_abandons_without_resources (job : Job) (region : String)
    (accountId : Option String) (svcNS : String) (M : Nat)
    (rp : Option Int) (o : TripleOracles)
    (h : o.tagGet = Except.error () ∨ o.tagGet = Except.ok []) :
    scrapeDiscoveryJobUsingMetricDataT job region accountId svcNS M rp o =
      (([], []), [ApiCall.tagGet]) ∧
    ∀ c ∈ (scrapeDiscoveryJobUsingMetricDataT job region accountId svcNS M
      rp o).2, c = ApiCall.tagGet := by
  have hmain : scrapeDiscoveryJobUsingMetricDataT job region accountId svcNS M
      rp o = (([], []), [ApiCall.tagGet]) := by
    rcases h with h | h <;>
      rw [scrapeDiscoveryJobUsingMetricDataT, h]
    rfl
  refine ⟨hmain, ?_⟩
  intro c hc
  rw [hmain] at hc
  simpa using hc

theorem C4_discovery_abandons_without_resources_witness :
    scrapeDiscoveryJobUsingMetricDataT
      { JobType := "alb", Roles := ["r"], Regions := ["eu"],
        Metrics := [], Length := 0, Delay := 0, RoundingPeriod := none,
        DimensionNameRequirements := [], CustomTags := [] }
      "eu" (some "111") "AWS/ALB" 500 none
      { identity := Except.ok (some "111"), tagGet := Except.ok [],
        listMetrics := fun _ => Except.ok [],
        getMetricData := fun _ => none, getStats := fun _ => none,
        rng := fun _ => 0 } = (([], []), [ApiCall.tagGet]) :=
  (C4_discovery_abandons_without_resources _ "eu" (some "111") "AWS/ALB" 500
    none _ (Or.inr rfl)).1

theorem getMetricDataForQueriesT_calls_acc (job : Job) (region : String)
    (accountId : Option String) (resources : List TaggedResource)
    (o : TripleOracles) (ms : List MetricConfig) :
    ∀ acc : List CloudwatchData × List ApiCall,
      (∀ c ∈ acc.2, ∃ n, c = ApiCall.listMetrics n) →
      ∀ c ∈ (ms.foldl
        (fun acc metric =>
          match o.listMetrics metric with
          | .error _ => (acc.1, acc.2 ++ [ApiCall.listMetrics metric.Name])
          | .ok metricsList =>
              (acc.1 ++ getFilteredMetricDatas region accountId job resources
                metricsList metric,
               acc.2 ++ [ApiCall.listMetrics metric.Name]))
        acc).2, ∃ n, c = ApiCall.listMetrics n := by
  induction ms with
  | nil => intro acc hacc; exact hacc
  | cons m ms ih =>
    intro acc hacc
    rw [List.foldl_cons]
    cases hlm : o.listMetrics m with
    | error e =>
      apply ih
      intro c hc
      rcases List.mem_append.mp hc with hc | hc
      · exact hacc c hc
      · exact ⟨m.Name, by simpa using hc⟩
    | ok metricsList =>
      apply ih
      intro c hc
      rcases List.mem_append.mp hc with hc | hc
      · exact hacc c hc
      · exact ⟨m.Name, by simpa using hc⟩

/-- Every call traced by the discovery query generation is a catalog call. -/
theorem getMetricDataForQueriesT_calls (job : Job) (region : String)
    (accountId : Option String) (resources : List TaggedResource)
    (o : TripleOracles) :
    ∀ c ∈ (getMetricDataForQueriesT job region accountId resources o).2,
      ∃ n, c = ApiCall.listMetrics n := by
  rw [getMetricDataForQueriesT]
  exact getMetricDataForQueriesT_calls_acc job region accountId resources o
    job.Metrics ([], []) (by intro c hc; exact absurd hc (List.not_mem_nil c))

/-- Window length as the claim words it, for comparison: see
`specWindowLength`. C5 fails on the code: a positive job-level override
replaces the default instead of being maxed with it, so a job override of 1
with no per-metric overrides yields 1 while the claimed maximum yields the
default 300. -/
theorem C5_window_length_counterexample :
    getMetricDataInputLength
      { JobType := "alb", Roles := ["r"], Regions := ["eu"], Metrics := [],
        Length := 1, Delay := 0, RoundingPeriod := none,
        DimensionNameRequirements := [], CustomTags := [] } = 1 ∧
    specWindowLength
      { JobType := "alb", Roles := ["r"], Regions := ["eu"], Metrics := [],
        Length := 1, Delay := 0, RoundingPeriod := none,
        DimensionNameRequirements := [], CustomTags := [] } =
      DefaultLengthSeconds ∧
    (1 : Int) ≠ DefaultLengthSeconds := by
  refine ⟨rfl, rfl, by decide⟩

/-- C5 amended: the discovery request window length is the maximum of all
per-metric overrides and of a base that is the job-level override when
positive and the default constant otherwise (a positive job override below the
default replaces the default rather than being maxed with it); this single
length is carried by every batched data-fetch call the discovery unit issues
for the job. -/
theorem C5_window_length_amended (job : Job) (region : String)
    (accountId : Option String) (svcNS : String) (M : Nat) (rp : Option Int)
    (o : TripleOracles) :
    getMetricDataInputLength job =
      (job.Metrics.map (fun m => m.Length)).foldl max
        (if job.Length > 0 then job.Length else DefaultLengthSeconds) ∧
    ∀ f, ApiCall.getMetricData f ∈
        (scrapeDiscoveryJobUsingMetricDataT job region accountId svcNS M rp
          o).2 →
      f.Length = getMetricDataInputLength job := by
  refine ⟨getMetricDataInputLength_eq job, ?_⟩
  intro f hf
  rw [scrapeDiscoveryJobUsingMetricDataT] at hf
  cases htag : o.tagGet with
  | error e =>
    rw [htag] at hf
    simp at hf
  | ok resources =>
    rw [htag] at hf
    dsimp only at hf
    by_cases hres : resources = []
    · rw [if_pos hres] at hf
      simp at hf
    · rw [if_neg hres] at hf
      by_cases hq : (getMetricDataForQueriesT job region accountId resources
          o).1 = []
      · rw [if_pos hq] at hf
        dsimp only at hf
        simp only [List.mem_cons] at hf
        rcases hf with hf | hf
        · exact absurd hf (by simp)
        · rcases getMetricDataForQueriesT_calls job region accountId resources
            o _ hf with ⟨n, hn⟩
          exact absurd hn (by simp)
      · rw [if_neg hq] at hf
        dsimp only at hf
        simp only [List.mem_cons, List.mem_append] at hf
        rcases hf with (hf | hf) | hf
        · exact absurd hf (by simp)
        · rcases getMetricDataForQueriesT_calls job region accountId resources
            o _ hf with ⟨n, hn⟩
          exact absurd hn (by simp)
        · rcases List.mem_map.mp hf with ⟨b, hb, hbf⟩
          have : f = createGetMetricDataInput b svcNS
              (getMetricDataInputLength job) job.Delay rp := by
            injection hbf.symm
          rw [this]
          rfl

/-- Concrete metric definition with no per-metric window override. -/
def metC5w : MetricConfig :=
  { Name := "CPU", Statistics := ["Average"], Period := 60, Length := 0,
    Delay := 0, NilToZero := none, AddCloudwatchTimestamp := none }

/-- Concrete discovery job with a positive job-level override of 1 second. -/
def jobC5w : Job :=
  { JobType := "alb", Roles := ["r"], Regions := ["eu"],
    Metrics := [metC5w],
    Length := 1, Delay := 0, RoundingPeriod := none,
    DimensionNameRequirements := [], CustomTags := [] }

/-- Concrete tagged resource for the closed discovery instance. -/
def resC5w : TaggedResource :=
  { ARN := "arn1", Namespace := "AWS/ALB", Region := "eu", Tags := [] }

/-- Concrete collaborator bundle for the closed discovery instance. -/
def oC5w : TripleOracles :=
  { identity := Except.ok (some "111")
    tagGet := Except.ok [resC5w]
    listMetrics := fun _ => Except.ok [⟨[]⟩]
    getMetricData := fun _ => none
    getStats := fun _ => none
    rng := fun _ => 0 }

/-- The batched-call input the closed discovery instance issues. -/
def fC5w : GetMetricDataInput :=
  createGetMetricDataInput
    (getMetricDataForQueriesT jobC5w "eu" (some "111") [resC5w] oC5w).1
    "AWS/ALB" (getMetricDataInputLength jobC5w) jobC5w.Delay
    jobC5w.RoundingPeriod

theorem C5_window_length_amended_witness :
    getMetricDataInputLength jobC5w =
      (jobC5w.Metrics.map (fun m => m.Length)).foldl max
        (if jobC5w.Length > 0 then jobC5w.Length else DefaultLengthSeconds) ∧
    fC5w.Length = getMetricDataInputLength jobC5w :=
  ⟨(C5_window_length_amended jobC5w "eu" (some "111") "AWS/ALB" 500 none
      oC5w).1,
   (C5_window_length_amended jobC5w "eu" (some "111") "AWS/ALB" 500 none
      oC5w).2 fC5w (by decide)⟩

/-- Concrete metric definition with two statistics. -/
def metC6 : MetricConfig :=
  { Name := "m", Statistics := ["Average", "Sum"], Period := 60,
    Length := 300, Delay := 0, NilToZero := none,
    AddCloudwatchTimestamp := none }

/-- Concrete custom-namespace job with one metric and two statistics. -/
def cnsJobCx : CustomNamespaceConf :=
  { Name := "cns", Namespace := "NS", Roles := ["r"], Regions := ["eu"],
    Metrics := [metC6],
    Length := 300, Delay := 0, RoundingPeriod := none,
    DimensionNameRequirements := [], CustomTags := [] }

/-- C6 counterexample: the custom-namespace correlation ids come from
`fmt.Sprintf("id_%d", rand.Int())` (abstract.go:426); nothing prevents the
random source from repeating a value, and with a repeating source the two
statistics of one catalog entry receive the same id inside one batch, so the
claimed pairwise distinctness fails. Here the source constantly draws 0: both
queries of the single batch carry the id "id_0". -/
theorem C6_minted_ids_counterexample :
    (getMetricDataForQueriesForCustomNamespace cnsJobCx "eu" (some "1")
      (fun _ => Except.ok [⟨[]⟩]) (fun _ => 0)).map (fun d => d.MetricID) =
      [some "id_0", some "id_0"] ∧
    ∃ b ∈ partitionBatches 500
      (getMetricDataForQueriesForCustomNamespace cnsJobCx "eu" (some "1")
        (fun _ => Except.ok [⟨[]⟩]) (fun _ => 0)),
      ¬ (b.map (fun d => d.MetricID)).Nodup := by
  constructor
  · rfl
  · decide

/-- C6 amended: the custom-namespace unit mints the k-th query's id from the
k-th draw of the random source (abstract.go:420-442); whenever the draws made
for the job render to pairwise distinct ids — which is what "freshly minted"
can guarantee at best for a random source, and what the upstream design notes
flag as a residual collision risk — no two queries in any batch share a
correlation id. -/
theorem C6_batch_ids_fresh_amended (job : CustomNamespaceConf)
    (region : String) (accountId : Option String)
    (lm : MetricConfig → Except Unit (List CwMetric)) (rng : Nat → Nat)
    (M : Nat)
    (hrng : ∀ i < (getMetricDataForQueriesForCustomNamespace job region
        accountId lm rng).length,
      ∀ j < (getMetricDataForQueriesForCustomNamespace job region accountId
        lm rng).length,
      i ≠ j → mintId (rng i) ≠ mintId (rng j)) :
    ∀ b ∈ partitionBatches M
      (getMetricDataForQueriesForCustomNamespace job region accountId lm rng),
      (b.map (fun d => d.MetricID)).Nodup := by
  have hminted := customNamespace_ids_minted job region accountId lm rng
  rw [mintedIds] at hminted
  have hnodup : ((getMetricDataForQueriesForCustomNamespace job region
      accountId lm rng).map (fun d => d.MetricID)).Nodup := by
    rw [hminted]
    apply List.Nodup.map_on _ (List.nodup_range _)
    intro x hx y hy hxy
    by_contra hne
    exact hrng x (List.mem_range.mp hx) y (List.mem_range.mp hy) hne
      (by simpa using hxy)
  intro b hb
  exact hnodup.sublist
    ((partitionBatches_sublist M _ b hb).map (fun d => d.MetricID))

theorem C6_batch_ids_fresh_amended_witness :
    ((getMetricDataForQueriesForCustomNamespace cnsJobCx "eu" (some "1")
        (fun _ => Except.ok [⟨[]⟩]) (fun k => k)).map
      (fun d => d.MetricID)).Nodup :=
  C6_batch_ids_fresh_amended cnsJobCx "eu" (some "1")
    (fun _ => Except.ok [⟨[]⟩]) (fun k => k) 500 (by decide)
    (getMetricDataForQueriesForCustomNamespace cnsJobCx "eu" (some "1")
      (fun _ => Except.ok [⟨[]⟩]) (fun k => k)) (by decide)

/-- One spawned worker per metric definition of the static job
(abstract.go:157-159). -/
def staticJobWorkerTraces (resource : StaticConf) : List (List GateEv) :=
  resource.Metrics.map (fun _ => staticWorkerTrace)

/-- C9: the static scrape unit spawns exactly one concurrent worker per metric
definition, each worker's event trace acquires the data-class gate before its
single-metric (unbatched) statistics fetch and releases it after, never
touches the tag-class gate, and the unit's contribution holds exactly one
query per metric whose fetch produced a non-null point list, carrying those
points. -/
theorem C9_static_unit (resource : StaticConf) (region : String)
    (accountId : Option String)
    (get : GetMetricStatisticsInput → Option (List Int)) :
    (staticJobWorkerTraces resource).length = resource.Metrics.length ∧
    (∀ t ∈ staticJobWorkerTraces resource, t = staticWorkerTrace) ∧
    GateEv.acqTag ∉ staticWorkerTrace ∧
    GateEv.relTag ∉ staticWorkerTrace ∧
    TraceWF staticWorkerTrace ∧
    FetchGated staticWorkerTrace ∧
    scrapeStaticJob resource region accountId get =
      resource.Metrics.filterMap (fun metric =>
        (get (createGetMetricStatisticsInput resource.Dimensions
          resource.Namespace metric)).map (fun pts =>
            { staticQueryData resource region accountId metric with
                Points := some pts })) := by
  refine ⟨?_, ?_, by decide, by decide, staticWorkerTrace_wf,
    staticWorkerTrace_gated, scrapeStaticJob_eq_filterMap _ _ _ _⟩
  · rw [staticJobWorkerTraces, List.length_map]
  · intro t ht
    rcases List.mem_map.mp ht with ⟨m, hm, hmt⟩
    exact hmt.symm

/-- Concrete static job used by the closed instance below. -/
def statC9 : StaticConf :=
  { Name := "s1", Namespace := "NS", Roles := ["r"], Regions := ["eu"],
    Dimensions := [], Metrics := [metC5w, metC6], CustomTags := [] }

/-- Concrete single-metric fetch oracle: points for the CPU metric only. -/
def getC9 : GetMetricStatisticsInput → Option (List Int) :=
  fun f => if f.MetricName = "CPU" then some [4] else none

theorem C9_static_unit_witness :
    (staticJobWorkerTraces statC9).length = statC9.Metrics.length ∧
    scrapeStaticJob statC9 "eu" (some "1") getC9 =
      statC9.Metrics.filterMap (fun metric =>
        (getC9 (createGetMetricStatisticsInput statC9.Dimensions
          statC9.Namespace metric)).map (fun pts =>
            { staticQueryData statC9 "eu" (some "1") metric with
                Points := some pts })) ∧
    staticWorkerTrace = staticWorkerTrace :=
  ⟨(C9_static_unit statC9 "eu" (some "1") getC9).1,
   (C9_static_unit statC9 "eu" (some "1") getC9).2.2.2.2.2.2,
   (C9_static_unit statC9 "eu" (some "1") getC9).2.1 staticWorkerTrace
     (by decide)⟩

/-- C3 counterexample: the discovery batch workers issue their batched
data-fetch with no data-gate acquisition at all (their trace contains no
acquire event — `scrapeDiscoveryJobUsingMetricData`, abstract.go:253-327, is
not even passed `cloudwatchSemaphore`), and two such workers under a
capacity-1 gate reach a state with two simultaneously in-flight data fetches,
refuting the claimed bound for the Discovery unit. -/
theorem C3_ungated_discovery_counterexample :
    GateEv.acqData ∉ discoveryBatchWorkerTrace ∧
    GateReachable
      (initSys 1 [discoveryBatchWorkerTrace, discoveryBatchWorkerTrace])
      ⟨1, [(discoveryBatchWorkerTrace, 1), (discoveryBatchWorkerTrace, 1)]⟩ ∧
    totalInFlight
      ⟨1, [(discoveryBatchWorkerTrace, 1),
        (discoveryBatchWorkerTrace, 1)]⟩ = 2 := by
  refine ⟨by decide, ?_, by decide⟩
  have h1 : GateStep
      (initSys 1 [discoveryBatchWorkerTrace, discoveryBatchWorkerTrace])
      ⟨1, [(discoveryBatchWorkerTrace, 1), (discoveryBatchWorkerTrace, 0)]⟩ :=
    GateStep.mk _ 0 (discoveryBatchWorkerTrace, 0) GateEv.startData rfl rfl
      (fun h => absurd h (by decide))
  have h2 : GateStep
      ⟨1, [(discoveryBatchWorkerTrace, 1), (discoveryBatchWorkerTrace, 0)]⟩
      ⟨1, [(discoveryBatchWorkerTrace, 1), (discoveryBatchWorkerTrace, 1)]⟩ :=
    GateStep.mk _ 1 (discoveryBatchWorkerTrace, 0) GateEv.startData rfl rfl
      (fun h => absurd h (by decide))
  exact Relation.ReflTransGen.head h1
    (Relation.ReflTransGen.head h2 Relation.ReflTransGen.refl)

/-- C3 amended: static-unit and custom-namespace batch workers acquire the
data-class gate before their (single-metric or batched) data fetch and release
it on completion, so in any interleaving of such workers under a gate of
capacity K at most K data fetches are in flight at any instant; the discovery
batch workers, however, issue their batched fetch outside the data-class gate
(see the counterexample), so the bound covers two of the three scrape-unit
kinds only. -/
theorem C3_gate_bound_amended (cap : Nat) (traces : List (List GateEv))
    (htr : ∀ t ∈ traces, t = staticWorkerTrace ∨ t = customBatchWorkerTrace)
    (s' : GateSys) (hreach : GateReachable (initSys cap traces) s') :
    totalInFlight s' ≤ cap := by
  apply gated_system_inFlight_le_cap cap traces _ _ s' hreach
  · intro t ht
    rcases htr t ht with h | h <;> rw [h]
    · exact staticWorkerTrace_wf
    · exact customBatchWorkerTrace_wf
  · intro t ht
    rcases htr t ht with h | h <;> rw [h]
    · exact staticWorkerTrace_gated
    · exact customBatchWorkerTrace_gated

theorem C3_gate_bound_amended_witness :
    totalInFlight (initSys 1 [staticWorkerTrace, customBatchWorkerTrace]) ≤ 1 :=
  C3_gate_bound_amended 1 [staticWorkerTrace, customBatchWorkerTrace]
    (by decide) _ Relation.ReflTransGen.refl

theorem discoveryTripleRun_identity_failure (job : Job) (region : String)
    (svcNS : String → String) (M : Nat) (o : TripleOracles)
    (h : identityFails o.identity = true) :
    discoveryTripleRun job region svcNS M o = ([], [], [accountIdErrorLog]) := by
  rw [discoveryTripleRun]
  cases hid : o.identity with
  | error e => rfl
  | ok acct =>
    cases acct with
    | none => rfl
    | some a =>
      rw [hid] at h
      exact absurd h (by simp [identityFails])

theorem staticTripleRun_identity_failure (job : StaticConf) (region : String)
    (o : TripleOracles) (h : identityFails o.identity = true) :
    staticTripleRun job region o = ([], [accountIdErrorLog]) := by
  rw [staticTripleRun]
  cases hid : o.identity with
  | error e => rfl
  | ok acct =>
    cases acct with
    | none => rfl
    | some a =>
      rw [hid] at h
      exact absurd h (by simp [identityFails])

theorem customTripleRun_identity_failure (job : CustomNamespaceConf)
    (region : String) (M : Nat) (o : TripleOracles)
    (h : identityFails o.identity = true) :
    customTripleRun job region M o = ([], [accountIdErrorLog]) := by
  rw [customTripleRun]
  cases hid : o.identity with
  | error e => rfl
  | ok acct =>
    cases acct with
    | none => rfl
    | some a =>
      rw [hid] at h
      exact absurd h (by simp [identityFails])

/-- C10: for every triple of every job kind, a failing identity resolution —
an error or a response lacking an account identifier (abstract.go:47-51,
89-93, 118-122) — abandons that triple immediately with an empty contribution
and exactly one log entry; and since each triple's contribution is a function
of its own collaborator bundle only, replacing the failing triple's bundle by
any other failing bundle leaves the whole aggregate unchanged — no other
triple's outcome is affected. -/
theorem C10_identity_failure_isolated (cfg : ScrapeConf) (M : Nat)
    (svcNS : String → String) (o o' : TripleId → TripleOracles) (t : TripleId)
    (hagree : ∀ s : TripleId, s ≠ t → o s = o' s)
    (hfail : identityFails (o t).identity = true)
    (hfail' : identityFails (o' t).identity = true) :
    (∀ (job : Job) (region : String) (b : TripleOracles),
      identityFails b.identity = true →
      discoveryTripleRun job region svcNS M b = ([], [], [accountIdErrorLog])) ∧
    (∀ (job : StaticConf) (region : String) (b : TripleOracles),
      identityFails b.identity = true →
      staticTripleRun job region b = ([], [accountIdErrorLog])) ∧
    (∀ (job : CustomNamespaceConf) (region : String) (b : TripleOracles),
      identityFails b.identity = true →
      customTripleRun job region M b = ([], [accountIdErrorLog])) ∧
    ScrapeAwsDataT cfg M svcNS o = ScrapeAwsDataT cfg M svcNS o' := by
  refine ⟨fun job region b hb =>
      discoveryTripleRun_identity_failure job region svcNS M b hb,
    fun job region b hb => staticTripleRun_identity_failure job region b hb,
    fun job region b hb => customTripleRun_identity_failure job region M b hb,
    ?_⟩
  have hdisc : ∀ x ∈ discoveryTriples cfg,
      discoveryTripleRun x.2.1 x.2.2 svcNS M (o x.1) =
        discoveryTripleRun x.2.1 x.2.2 svcNS M (o' x.1) := by
    intro x _
    by_cases hx : x.1 = t
    · rw [hx, discoveryTripleRun_identity_failure _ _ _ _ _ hfail,
        discoveryTripleRun_identity_failure _ _ _ _ _ hfail']
    · rw [hagree x.1 hx]
  have hstat : ∀ x ∈ staticTriples cfg,
      staticTripleRun x.2.1 x.2.2 (o x.1) =
        staticTripleRun x.2.1 x.2.2 (o' x.1) := by
    intro x _
    by_cases hx : x.1 = t
    · rw [hx, staticTripleRun_identity_failure _ _ _ hfail,
        staticTripleRun_identity_failure _ _ _ hfail']
    · rw [hagree x.1 hx]
  have hcust : ∀ x ∈ customTriples cfg,
      customTripleRun x.2.1 x.2.2 M (o x.1) =
        customTripleRun x.2.1 x.2.2 M (o' x.1) := by
    intro x _
    by_cases hx : x.1 = t
    · rw [hx, customTripleRun_identity_failure _ _ _ _ hfail,
        customTripleRun_identity_failure _ _ _ _ hfail']
    · rw [hagree x.1 hx]
  rw [ScrapeAwsDataT, ScrapeAwsDataT,
    List.map_congr_left hdisc, List.map_congr_left hstat,
    List.map_congr_left hcust]

/-- Concrete collaborator bundle whose identity resolution fails. -/
def oC10 : TripleOracles :=
  { identity := Except.error ()
    tagGet := Except.ok []
    listMetrics := fun _ => Except.ok []
    getMetricData := fun _ => none
    getStats := fun _ => none
    rng := fun _ => 0 }

/-- Concrete configuration with one job of each kind. -/
def cfgC10 : ScrapeConf :=
  { DiscoveryJobs := [jobC5w]
    Static := [statC9]
    CustomNamespace := [cnsJobCx] }

theorem C10_identity_failure_isolated_witness :
    discoveryTripleRun jobC5w "eu" (fun _ => "AWS/ALB") 500 oC10 =
      ([], [], [accountIdErrorLog]) ∧
    staticTripleRun statC9 "eu" oC10 = ([], [accountIdErrorLog]) ∧
    customTripleRun cnsJobCx "eu" 500 oC10 = ([], [accountIdErrorLog]) ∧
    ScrapeAwsDataT cfgC10 500 (fun _ => "AWS/ALB") (fun _ => oC10) =
      ScrapeAwsDataT cfgC10 500 (fun _ => "AWS/ALB") (fun _ => oC10) :=
  ⟨(C10_identity_failure_isolated cfgC10 500 (fun _ => "AWS/ALB")
      (fun _ => oC10) (fun _ => oC10) (TripleId.discovery 0 0 0)
      (fun _ _ => rfl) (by decide) (by decide)).1 jobC5w "eu" oC10 (by decide),
   (C10_identity_failure_isolated cfgC10 500 (fun _ => "AWS/ALB")
      (fun _ => oC10) (fun _ => oC10) (TripleId.discovery 0 0 0)
      (fun _ _ => rfl) (by decide) (by decide)).2.1 statC9 "eu" oC10
      (by decide),
   (C10_identity_failure_isolated cfgC10 500 (fun _ => "AWS/ALB")
      (fun _ => oC10) (fun _ => oC10) (TripleId.discovery 0 0 0)
      (fun _ _ => rfl) (by decide) (by decide)).2.2.1 cnsJobCx "eu" oC10
      (by decide),
   (C10_identity_failure_isolated cfgC10 500 (fun _ => "AWS/ALB")
      (fun _ => oC10) (fun _ => oC10) (TripleId.discovery 0 0 0)
      (fun _ _ => rfl) (by decide) (by decide)).2.2.2⟩
